import Mathlib

/-!
Verification of the insurance-document intake frontend: the auth client
(`AuthContext.tsx`, embedded from `src/unnamed/part_005`), the multi-carrier
upload orchestrator (`frontend/app/summary/page.tsx`), the QC upload form and
the QC result poller (`frontend/app/page.tsx`).  Each TypeScript handler is
embedded as an executable Lean function; network effects are represented by
the request values a handler would send and by explicit response sequences
fed to the poller.
-/

/- ## Upload orchestrator data model (frontend/app/summary/page.tsx) -/

/-- One slot of a carrier entry: the two PDF upload boxes. -/
inductive FileSlot
  | property
  | liability
deriving DecidableEq, Repr

/-- `CarrierData` from summary/page.tsx.  A file is modelled as an opaque
string (its content identity); `none` means no file attached in that slot. -/
structure CarrierData where
  id : Nat
  name : String
  propertyPDF : Option String
  liabilityPDF : Option String
deriving DecidableEq, Repr

/-- One element of the `carriers_json` batch descriptor built in
`handleExecute`. -/
structure CarrierDescriptor where
  name : String
  hasProperty : Bool
  hasLiability : Bool
deriving DecidableEq, Repr

/-- One `file_metadata` entry: JSON `{carrierIndex, type}` appended next to
each file. -/
structure FileTag where
  carrierIndex : Nat
  type : FileSlot
deriving DecidableEq, Repr

/-- The multipart upload request `handleExecute` sends to `/upload-quotes/`:
HTTP headers, the `carriers_json` descriptor, the flat `files` list and the
parallel `file_metadata` list. -/
structure UploadRequest where
  headers : List (String × String)
  carriers_json : List CarrierDescriptor
  files : List String
  file_metadata : List FileTag
deriving DecidableEq, Repr

/-- Outcome of one `handleExecute` invocation: a client-side validation
alert (no network call), or the request that is sent. -/
inductive ExecuteOutcome
  | validationAlert (msg : String)
  | request (r : UploadRequest)
deriving DecidableEq, Repr

/-- Number of `fetch` calls an outcome performs. -/
def uploadFetchCalls : ExecuteOutcome → Nat
  | ExecuteOutcome.validationAlert _ => 0
  | ExecuteOutcome.request _ => 1

/-- The slot accessor: which file a carrier holds in a given slot. -/
def slotFile (c : CarrierData) : FileSlot → Option String
  | FileSlot.property => c.propertyPDF
  | FileSlot.liability => c.liabilityPDF

/-- The `carriers_json` descriptor built in `handleExecute`
(`carriers.map` of `{name, hasProperty, hasLiability}`). -/
def carriersDescriptor (cs : List CarrierData) : List CarrierDescriptor :=
  cs.map (fun c => ⟨c.name, c.propertyPDF.isSome, c.liabilityPDF.isSome⟩)

/-- The `carriers.forEach` loop of `handleExecute`: for each carrier, in
order, append the property file (if any) with tag `{carrierIdx, property}`
and then the liability file (if any) with tag `{carrierIdx, liability}`.
The `Nat` argument is the running carrier index. -/
def batchFileEntries : Nat → List CarrierData → List (String × FileTag)
  | _, [] => []
  | idx, c :: rest =>
    (match c.propertyPDF with
      | some f => [(f, ⟨idx, FileSlot.property⟩)]
      | none => []) ++
    (match c.liabilityPDF with
      | some f => [(f, ⟨idx, FileSlot.liability⟩)]
      | none => []) ++
    batchFileEntries (idx + 1) rest

/-- JavaScript `String.prototype.trim`: strip leading and trailing
whitespace.  Defined over the character list so that it evaluates. -/
def jsTrim (s : String) : String :=
  ⟨((s.data.dropWhile Char.isWhitespace).reverse.dropWhile Char.isWhitespace).reverse⟩

/-- `handleExecute` from summary/page.tsx.  `user` is the active session's
username, in scope through `useAuth()`; note that the request construction
never reads it.  Validation: every carrier name must be non-blank after
trimming, and at least one file must be attached across all carriers;
otherwise an alert is raised and no network call is made. -/
def handleExecute (user : String) (carriers : List CarrierData) : ExecuteOutcome :=
  if !(carriers.all (fun c => jsTrim c.name != "")) then
    ExecuteOutcome.validationAlert ("Please fill in all carrier names")
  else if !(carriers.any (fun c => c.propertyPDF.isSome || c.liabilityPDF.isSome)) then
    ExecuteOutcome.validationAlert ("Please upload at least one PDF across all carriers")
  else
    ExecuteOutcome.request
      { headers := [("ngrok-skip-browser-warning", "true")]
        carriers_json := carriersDescriptor carriers
        files := (batchFileEntries 0 carriers).map Prod.fst
        file_metadata := (batchFileEntries 0 carriers).map Prod.snd }

/-- `removeCarrier` from summary/page.tsx: filter the entry with the given
id out, unless it is the last remaining entry, in which case the list is
left unchanged (an alert is shown instead). -/
def removeCarrier (carriers : List CarrierData) (cid : Nat) : List CarrierData :=
  if 1 < carriers.length then carriers.filter (fun c => c.id != cid) else carriers

/- ## Stub-backend deserialization (spec round-trip property) -/

/-- Does the tag list contain a tag for carrier `i`, slot `s`? -/
def hasTag (tags : List FileTag) (i : Nat) (s : FileSlot) : Bool :=
  tags.any (fun t => decide (t.carrierIndex = i) && decide (t.type = s))

/-- Stub-backend reconstruction, following the spec round-trip property:
walk the batch descriptor in order and recover, per carrier, the name from
the descriptor and which slots had files from the `{carrierIndex, slot}`
tags.  The `Nat` argument is the running carrier index. -/
def reconstructFrom : Nat → List CarrierDescriptor → List FileTag → List (String × Bool × Bool)
  | _, [], _ => []
  | i, d :: ds, tags =>
    (d.name, hasTag tags i FileSlot.property, hasTag tags i FileSlot.liability)
      :: reconstructFrom (i + 1) ds tags

/-- Stub-backend deserialization of a whole batch. -/
def reconstructCarriers (ds : List CarrierDescriptor) (tags : List FileTag) :
    List (String × Bool × Bool) :=
  reconstructFrom 0 ds tags

/- ## QC upload form (QCUploadPage.handleSubmit in frontend/app/page.tsx) -/

/-- The `UploadState` of the QC upload page: the three file boxes. -/
structure QCUploadState where
  policy : Option String
  property_cert : Option String
  gl_cert : Option String
deriving DecidableEq, Repr

/-- Outcome of `QCUploadPage.handleSubmit`: a user-facing error with no
network call, or the multipart form fields sent to `/upload-qc/`. -/
inductive QCOutcome
  | validationError (msg : String)
  | request (fields : List (String × String))
deriving DecidableEq, Repr

/-- Number of `fetch` calls a QC outcome performs. -/
def qcFetchCalls : QCOutcome → Nat
  | QCOutcome.validationError _ => 0
  | QCOutcome.request _ => 1

/-- `handleSubmit` from QCUploadPage: unless all three files are attached,
set an error and return before any network call; otherwise append the three
PDFs and the username (read from `localStorage`, defaulting to `qc_user`)
as form fields and post them. -/
def qcHandleSubmit (st : QCUploadState) (localStorageUsername : Option String) : QCOutcome :=
  match st.policy, st.property_cert, st.gl_cert with
  | some p, some pc, some gc =>
      QCOutcome.request
        [("policy_pdf", p), ("property_cert_pdf", pc), ("gl_cert_pdf", gc),
         ("username", localStorageUsername.getD ("qc_user"))]
  | _, _, _ => QCOutcome.validationError ("Please upload all three PDF files")

/- ## QC result poller (QCReviewPage.fetchResults in frontend/app/page.tsx) -/

/-- The parsed `/qc-results/` response body: `success`, an optional
`llm_results` payload (opaque) and optional `flagged_results`, modelled by
its list of object keys (`Object.keys`). -/
structure QCData where
  success : Bool
  llm_results : Option String
  flagged_results : Option (List String)
deriving DecidableEq, Repr

/-- Truthiness of `data.data.flagged_results && Object.keys(...).length > 0`. -/
def flaggedNonempty (d : QCData) : Bool :=
  match d.flagged_results with
  | some ks => decide (0 < ks.length)
  | none => false

/-- One poll's observable response: the fetch promise rejecting with a
message, or an HTTP response with a status and a body (`none` when the body
fails to parse as JSON). -/
inductive PollResponse
  | netFail (msg : String)
  | http (status : Nat) (body : Option QCData)
deriving DecidableEq, Repr

/-- `response.ok`: status in the 200-299 range. -/
def respOk (status : Nat) : Bool :=
  decide (200 ≤ status) && decide (status < 300)

/-- The single action one `fetchResults` invocation takes: schedule the next
poll (`setTimeout` bumping `pollCount`), resolve (`setResults` and stop), or
fail terminally (`setError` and stop). -/
inductive PollStep
  | schedule
  | resolve (d : QCData)
  | fail (msg : String)
deriving DecidableEq, Repr

/-- One invocation of `fetchResults` at a given `pollCount`, on a given
response.  Mirrors the source: a non-ok response either reschedules (404
under 60 polls) or throws; the catch block retries any thrown error while
`pollCount < 60` and otherwise sets the error message.  An ok response with
the primary `llm_results` payload resolves immediately when
`flagged_results` is non-empty, keeps polling below 120 polls otherwise,
and past 120 polls resolves with the primary payload alone; an ok response
without the primary payload keeps polling below 120 polls and times out
terminally past them. -/
def fetchResultsStep (pollCount : Nat) : PollResponse → PollStep
  | PollResponse.netFail msg =>
      if pollCount < 60 then PollStep.schedule else PollStep.fail msg
  | PollResponse.http status body =>
      if !(respOk status) then
        if status = 404 ∧ pollCount < 60 then PollStep.schedule
        else if pollCount < 60 then PollStep.schedule
        else PollStep.fail ("Failed to fetch results")
      else
        match body with
        | none =>
            if pollCount < 60 then PollStep.schedule
            else PollStep.fail ("Unexpected end of JSON input")
        | some d =>
            if d.success && d.llm_results.isSome then
              if flaggedNonempty d then PollStep.resolve d
              else if pollCount < 120 then PollStep.schedule
              else PollStep.resolve d
            else if pollCount < 120 then PollStep.schedule
            else PollStep.fail ("Processing timeout - no results available")

/-- Result of driving the poller over a response sequence: resolution or a
terminal error at a given attempt, or exhaustion of the (finite) mock
sequence while a further poll is still scheduled. -/
inductive RunResult
  | resolved (d : QCData) (attempt : Nat)
  | errored (msg : String) (attempt : Nat)
  | exhausted (next : Nat)
deriving DecidableEq, Repr

/-- The polling loop: the effect re-runs `fetchResults` once per `pollCount`
value, consuming one response per attempt. -/
def pollRun : List PollResponse → Nat → RunResult
  | [], n => RunResult.exhausted n
  | r :: rs, n =>
      match fetchResultsStep n r with
      | PollStep.schedule => pollRun rs (n + 1)
      | PollStep.resolve d => RunResult.resolved d n
      | PollStep.fail m => RunResult.errored m n

/-- Does a response carry the primary extraction payload
(`response.ok`, `data.success` and `data.data.llm_results` all truthy)? -/
def responseHasPrimary : PollResponse → Bool
  | PollResponse.http status (some d) => respOk status && d.success && d.llm_results.isSome
  | _ => false

/- ## Auth client (AuthProvider in src/unnamed/part_005, sessionStorage version) -/

/-- What the tab-scoped `sessionStorage` slot `user` can hold: a JSON entry
parsing to `{username}`, or an unparsable entry. -/
inductive StoredUser
  | valid (username : String)
  | invalid
deriving DecidableEq, Repr

/-- The AuthProvider state: the in-memory `user` (the Session), the
`isLoggedIn` flag, and the `sessionStorage` slot. -/
structure AuthState where
  user : Option String
  isLoggedIn : Bool
  storage : Option StoredUser
deriving DecidableEq, Repr

/-- The mount effect: read `sessionStorage.getItem` and, when present and
parsable, install the session; a parse failure is caught and leaves the
in-memory state anonymous. -/
def mountAuth : Option StoredUser → AuthState
  | some (StoredUser.valid u) => ⟨some u, true, some (StoredUser.valid u)⟩
  | some StoredUser.invalid => ⟨none, false, some StoredUser.invalid⟩
  | none => ⟨none, false, none⟩

/-- The observable outcomes of the AuthProvider operations: login/register
resolving with the canonical username echoed by the backend, login/register
rejecting (the thrown error propagates before any state write), and logout. -/
inductive AuthOp
  | loginSuccess (username : String)
  | loginFailure
  | registerSuccess (username : String)
  | registerFailure
  | logout
deriving DecidableEq, Repr

/-- State transition of one AuthProvider operation.  A successful login or
register sets the in-memory user and writes `sessionStorage`; a failure
throws before `setUser`, changing nothing; `logout` clears both. -/
def applyAuthOp (s : AuthState) : AuthOp → AuthState
  | AuthOp.loginSuccess u => ⟨some u, true, some (StoredUser.valid u)⟩
  | AuthOp.loginFailure => s
  | AuthOp.registerSuccess u => ⟨some u, true, some (StoredUser.valid u)⟩
  | AuthOp.registerFailure => s
  | AuthOp.logout => ⟨none, false, none⟩

/-- A whole tab lifetime: mount from whatever storage holds, then any
sequence of operations. -/
def runAuth (st : Option StoredUser) (ops : List AuthOp) : AuthState :=
  ops.foldl applyAuthOp (mountAuth st)

/-- The username storage holds, when it holds a valid entry. -/
def storedUsername : Option StoredUser → Option String
  | some (StoredUser.valid u) => some u
  | some StoredUser.invalid => none
  | none => none

/- ## Register flow -/

/-- The `/register/` backend response as the AuthProvider sees it: ok with
the canonical username in `data.username`, or an error whose `detail`
message may be present. -/
inductive RegisterResponse
  | ok (username : String)
  | err (detail : Option String)
deriving DecidableEq, Repr

/-- `AuthProvider.register` network part (src/unnamed/part_005): on an ok
response return the canonical echoed username (which becomes the Session),
otherwise throw `error.detail` or the fallback message. -/
def authRegister (resp : RegisterResponse) : Except String String :=
  match resp with
  | RegisterResponse.ok canonical => Except.ok canonical
  | RegisterResponse.err d => Except.error (d.getD ("Registration failed"))

/-- Result of one submission of the register form. -/
inductive RegisterResult
  | validationError (msg : String)
  | conflictError (msg : String)
  | session (username : String)
deriving DecidableEq, Repr

/-- Modelled from the spec: `frontend/app/register/page.tsx` is not under
src/ (the implementation notes record that it enforces a username length of
at least 3 characters, and the spec adds the password-confirmation check).
Per the spec, both checks run before the network call and fail with a
ValidationError; otherwise the form calls `AuthProvider.register`, whose
source is embedded as `authRegister`.  The first component counts network
calls. -/
def registerSubmit (username password confirm : String) (backend : RegisterResponse) :
    Nat × RegisterResult :=
  if username.length < 3 then
    (0, RegisterResult.validationError ("Username must be at least 3 characters"))
  else if password ≠ confirm then
    (0, RegisterResult.validationError ("Passwords do not match"))
  else
    match authRegister backend with
    | Except.ok canonical => (1, RegisterResult.session canonical)
    | Except.error m => (1, RegisterResult.conflictError m)

/- ## Theorems -/

/-- The auth invariant as a single equation: the in-memory user mirrors the
valid content of storage. -/
def authInv (s : AuthState) : Prop :=
  s.user = storedUsername s.storage

theorem applyAuthOp_preserves_inv (s : AuthState) (op : AuthOp) (h : authInv s) :
    authInv (applyAuthOp s op) := by
  cases op <;> simp [applyAuthOp, authInv, storedUsername] <;> exact h

theorem foldl_preserves_inv (ops : List AuthOp) (s : AuthState) (h : authInv s) :
    authInv (ops.foldl applyAuthOp s) := by
  induction ops generalizing s with
  | nil => exact h
  | cons op rest ih =>
      exact ih (applyAuthOp s op) (applyAuthOp_preserves_inv s op h)

theorem mountAuth_inv (st : Option StoredUser) : authInv (mountAuth st) := by
  cases st with
  | none => rfl
  | some v => cases v <;> rfl

/-- C6: at every state reachable by mount followed by any sequence of
login/register successes and failures and logouts, the in-memory Session
mirrors the valid username in tab-scoped storage: a Session exists if and
only if storage holds a valid username, and when it does the two usernames
agree. -/
theorem auth_session_iff_storage (st : Option StoredUser) (ops : List AuthOp) :
    (runAuth st ops).user = storedUsername (runAuth st ops).storage ∧
      ((runAuth st ops).user.isSome ↔
        ∃ u, (runAuth st ops).storage = some (StoredUser.valid u)) := by
  have h : authInv (runAuth st ops) :=
    foldl_preserves_inv ops (mountAuth st) (mountAuth_inv st)
  refine ⟨h, ?_⟩
  rw [authInv] at h
  rw [h]
  cases hs : (runAuth st ops).storage with
  | none => simp [storedUsername]
  | some v =>
      cases v with
      | valid u => simp [storedUsername]
      | invalid => simp [storedUsername]

theorem filter_id_eq_self (l : List CarrierData) (cid : Nat)
    (h : ∀ c ∈ l, c.id ≠ cid) : l.filter (fun c => c.id != cid) = l := by
  induction l with
  | nil => rfl
  | cons c rest ih =>
      have hc : (c.id != cid) = true := by
        simp only [bne_iff_ne, ne_eq]
        exact h c (List.mem_cons_self c rest)
      have hstep : List.filter (fun c => c.id != cid) (c :: rest) =
          c :: List.filter (fun c => c.id != cid) rest := by
        simp [List.filter_cons, hc]
      rw [hstep, ih (fun x hx => h x (List.mem_cons_of_mem c hx))]

/-- C7: the carrier list never drops below one entry: on a singleton list
`removeCarrier` is the identity (the warning path), on longer lists with
pairwise-distinct ids the length stays at least 1, and when the list splits
as `l1 ++ c :: l2` around the unique entry `c` carrying the requested id,
`removeCarrier` returns exactly `l1 ++ l2`, the other entries in order. -/
theorem removeCarrier_spec (cs l1 l2 : List CarrierData) (c : CarrierData) (cid : Nat) :
    (cs.length = 1 → removeCarrier cs cid = cs) ∧
    ((cs.map CarrierData.id).Nodup → 1 ≤ cs.length →
      1 ≤ (removeCarrier cs cid).length) ∧
    (1 < cs.length → cs = l1 ++ c :: l2 → c.id = cid →
      (∀ x ∈ l1, x.id ≠ cid) → (∀ x ∈ l2, x.id ≠ cid) →
      removeCarrier cs cid = l1 ++ l2) := by
  refine ⟨?_, ?_, ?_⟩
  · intro h1
    have : ¬ 1 < cs.length := by omega
    simp [removeCarrier, this]
  · intro hnod hlen
    by_cases hgt : 1 < cs.length
    · rw [removeCarrier, if_pos hgt]
      cases cs with
      | nil => simp at hlen
      | cons a rest =>
          by_cases ha : a.id = cid
          · have hnotmem : a.id ∉ rest.map CarrierData.id := by
              rw [List.map_cons, List.nodup_cons] at hnod
              exact hnod.1
            have hnotin : ∀ x ∈ rest, x.id ≠ cid := by
              intro x hx hxid
              exact hnotmem (by
                rw [ha, ← hxid]
                exact List.mem_map_of_mem CarrierData.id hx)
            have hfa : (a.id != cid) = false := by simp [bne_iff_ne, ha]
            have hstep : List.filter (fun c => c.id != cid) (a :: rest) =
                List.filter (fun c => c.id != cid) rest := by
              simp [List.filter_cons, hfa]
            rw [hstep, filter_id_eq_self rest cid hnotin]
            simp at hgt
            omega
          · have hfa : (a.id != cid) = true := by simp [bne_iff_ne, ha]
            have hstep : List.filter (fun c => c.id != cid) (a :: rest) =
                a :: List.filter (fun c => c.id != cid) rest := by
              simp [List.filter_cons, hfa]
            rw [hstep]
            simp
    · rw [removeCarrier, if_neg hgt]
      exact hlen
  · intro hgt heq hcid h1 h2
    rw [removeCarrier, if_pos hgt, heq, List.filter_append]
    rw [filter_id_eq_self l1 cid h1]
    have hstep : List.filter (fun x => x.id != cid) (c :: l2) =
        List.filter (fun x => x.id != cid) l2 := by
      simp [List.filter_cons, hcid]
    rw [hstep, filter_id_eq_self l2 cid h2]

/-- C7 witness: on the singleton list removal is a no-op, and on a
two-element list removing id 1 leaves exactly the other entry. -/
theorem removeCarrier_spec_witness :
    removeCarrier [⟨1, ("A"), none, none⟩] 1 = [⟨1, ("A"), none, none⟩] ∧
    removeCarrier [⟨1, ("A"), none, none⟩, ⟨2, ("B"), some ("f"), none⟩] 1 =
      [⟨2, ("B"), some ("f"), none⟩] := by
  constructor
  · exact (removeCarrier_spec [⟨1, ("A"), none, none⟩] [] []
      ⟨1, ("A"), none, none⟩ 1).1 (by decide)
  · exact (removeCarrier_spec [⟨1, ("A"), none, none⟩, ⟨2, ("B"), some ("f"), none⟩]
      [] [⟨2, ("B"), some ("f"), none⟩] ⟨1, ("A"), none, none⟩ 1).2.2
      (by decide) rfl rfl (by intro x hx; simp at hx) (by
        intro x hx
        simp at hx
        simp [hx])

/-- C3: `handleExecute` raises a client-side validation alert exactly when
some carrier name is blank after trimming or no file is attached anywhere,
it performs zero fetch calls exactly in the alert case, and the network
call proceeds exactly when every name is non-blank and some file exists. -/
theorem submit_validation (u : String) (cs : List CarrierData) :
    ((∃ msg, handleExecute u cs = ExecuteOutcome.validationAlert msg) ↔
      ((∃ c ∈ cs, jsTrim c.name = "") ∨ (∀ c ∈ cs, c.propertyPDF = none ∧ c.liabilityPDF = none))) ∧
    (uploadFetchCalls (handleExecute u cs) = 0 ↔
      (∃ msg, handleExecute u cs = ExecuteOutcome.validationAlert msg)) ∧
    ((∃ r, handleExecute u cs = ExecuteOutcome.request r) ↔
      ((∀ c ∈ cs, jsTrim c.name ≠ "") ∧ (∃ c ∈ cs, c.propertyPDF.isSome ∨ c.liabilityPDF.isSome))) := by
  have hAiff : (cs.all fun c => jsTrim c.name != "") = true ↔ ∀ c ∈ cs, jsTrim c.name ≠ "" := by
    simp [List.all_eq_true]
  have hBiff : (cs.any fun c => c.propertyPDF.isSome || c.liabilityPDF.isSome) = true ↔
      ∃ c ∈ cs, c.propertyPDF.isSome ∨ c.liabilityPDF.isSome := by
    simp [List.any_eq_true]
  by_cases hA : (cs.all fun c => jsTrim c.name != "") = true
  · by_cases hB : (cs.any fun c => c.propertyPDF.isSome || c.liabilityPDF.isSome) = true
    · have hout : handleExecute u cs = ExecuteOutcome.request
          { headers := [("ngrok-skip-browser-warning", "true")]
            carriers_json := carriersDescriptor cs
            files := (batchFileEntries 0 cs).map Prod.fst
            file_metadata := (batchFileEntries 0 cs).map Prod.snd } := by
        rw [handleExecute]
        simp [hA, hB]
      refine ⟨?_, ?_, ?_⟩
      · rw [hout]
        constructor
        · rintro ⟨m, hm⟩
          exact absurd hm (by simp)
        · rintro (⟨c, hc, hname⟩ | hnone)
          · exact absurd (hAiff.mp hA c hc) (by simp [hname])
          · obtain ⟨c, hc, hfile⟩ := hBiff.mp hB
            rcases hfile with hf | hf <;>
              simp [(hnone c hc).1, (hnone c hc).2] at hf
      · rw [hout]
        simp [uploadFetchCalls]
      · rw [hout]
        simp only [ExecuteOutcome.request.injEq, exists_eq']
        constructor
        · intro _
          exact ⟨hAiff.mp hA, hBiff.mp hB⟩
        · intro _
          trivial
    · have hout : handleExecute u cs =
          ExecuteOutcome.validationAlert ("Please upload at least one PDF across all carriers") := by
        rw [handleExecute]
        simp [hA, hB]
      have hnone : ∀ c ∈ cs, c.propertyPDF = none ∧ c.liabilityPDF = none := by
        intro c hc
        by_contra hcon
        refine hB (hBiff.mpr ⟨c, hc, ?_⟩)
        rcases hp : c.propertyPDF with _ | f
        · rcases hl : c.liabilityPDF with _ | g
          · exact absurd ⟨hp, hl⟩ hcon
          · exact Or.inr (by simp [hl])
        · exact Or.inl (by simp [hp])
      refine ⟨?_, ?_, ?_⟩
      · rw [hout]
        simp only [ExecuteOutcome.validationAlert.injEq, exists_eq']
        constructor
        · intro _
          exact Or.inr hnone
        · intro _
          trivial
      · rw [hout]
        simp [uploadFetchCalls]
      · rw [hout]
        constructor
        · rintro ⟨r, hr⟩
          exact absurd hr (by simp)
        · rintro ⟨_, c, hc, hfile⟩
          rcases hfile with hf | hf <;>
            simp [(hnone c hc).1, (hnone c hc).2] at hf
  · have hout : handleExecute u cs =
        ExecuteOutcome.validationAlert ("Please fill in all carrier names") := by
      rw [handleExecute]
      simp [hA]
    have hblank : ∃ c ∈ cs, jsTrim c.name = "" := by
      by_contra hcon
      push_neg at hcon
      exact hA (hAiff.mpr hcon)
    refine ⟨?_, ?_, ?_⟩
    · rw [hout]
      simp only [ExecuteOutcome.validationAlert.injEq, exists_eq']
      constructor
      · intro _
        exact Or.inl hblank
      · intro _
        trivial
    · rw [hout]
      simp [uploadFetchCalls]
    · rw [hout]
      constructor
      · rintro ⟨r, hr⟩
        exact absurd hr (by simp)
      · rintro ⟨hnames, _⟩
        obtain ⟨c, hc, hname⟩ := hblank
        exact absurd hname (hnames c hc)

/-- C3 witness: a carrier list with a name but no file makes zero fetch
calls, and attaching one file makes the call proceed. -/
theorem submit_validation_witness :
    (∃ msg, handleExecute ("mudassir") [⟨1, ("State Farm"), none, none⟩] =
      ExecuteOutcome.validationAlert msg) ∧
    (∃ r, handleExecute ("mudassir") [⟨1, ("State Farm"), some ("q.pdf"), none⟩] =
      ExecuteOutcome.request r) := by
  constructor
  · exact (submit_validation ("mudassir") [⟨1, ("State Farm"), none, none⟩]).1.mpr
      (Or.inr (by intro c hc; simp at hc; simp [hc]))
  · exact (submit_validation ("mudassir") [⟨1, ("State Farm"), some ("q.pdf"), none⟩]).2.2.mpr
      ⟨by intro c hc; simp at hc; simp [hc]; decide,
       ⟨⟨1, ("State Farm"), some ("q.pdf"), none⟩, by simp, by simp⟩⟩

/-- C1: the upload request `handleExecute` sends carries no identity header
at all — its header list is exactly the ngrok skip header, and the request
is identical under the sessions `mudassir` and `aamir` (the QC flow
meanwhile sends the username as a multipart form field, not a header).
This contradicts the identity-header contract. -/
theorem upload_identity_header_missing :
    handleExecute ("mudassir") [⟨1, ("State Farm"), some ("sf_property.pdf"), none⟩] =
      handleExecute ("aamir") [⟨1, ("State Farm"), some ("sf_property.pdf"), none⟩] ∧
    handleExecute ("mudassir") [⟨1, ("State Farm"), some ("sf_property.pdf"), none⟩] =
      ExecuteOutcome.request
        { headers := [("ngrok-skip-browser-warning", "true")]
          carriers_json := [⟨("State Farm"), true, false⟩]
          files := [("sf_property.pdf")]
          file_metadata := [⟨0, FileSlot.property⟩] } ∧
    qcHandleSubmit ⟨some ("p.pdf"), some ("pc.pdf"), some ("gc.pdf")⟩ (some ("mudassir")) =
      QCOutcome.request
        [("policy_pdf", ("p.pdf")), ("property_cert_pdf", ("pc.pdf")),
         ("gl_cert_pdf", ("gc.pdf")), ("username", ("mudassir"))] := by
  refine ⟨rfl, by decide, rfl⟩

/-- C10: the QC flow is strict — unless all three files are attached the
submission fails with a user-facing error and makes zero fetch calls, and
with all three it posts the form; in contrast the generic multi-carrier
flow proceeds with a single file across all entries. -/
theorem qc_requires_all_three_files (st : QCUploadState) (ls : Option String) :
    ((st.policy = none ∨ st.property_cert = none ∨ st.gl_cert = none) →
      qcHandleSubmit st ls = QCOutcome.validationError ("Please upload all three PDF files") ∧
      qcFetchCalls (qcHandleSubmit st ls) = 0) ∧
    ((∃ p, st.policy = some p) → (∃ pc, st.property_cert = some pc) →
      (∃ gc, st.gl_cert = some gc) →
      ∃ fields, qcHandleSubmit st ls = QCOutcome.request fields) ∧
    (∃ r, handleExecute ("mudassir") [⟨1, ("State Farm"), some ("quote.pdf"), none⟩] =
      ExecuteOutcome.request r) ∧
    qcHandleSubmit ⟨some ("quote.pdf"), none, none⟩ none =
      QCOutcome.validationError ("Please upload all three PDF files") := by
  refine ⟨?_, ?_,
    ⟨{ headers := [("ngrok-skip-browser-warning", "true")]
       carriers_json := [⟨("State Farm"), true, false⟩]
       files := [("quote.pdf")]
       file_metadata := [⟨0, FileSlot.property⟩] }, by decide⟩, rfl⟩
  · intro h
    rcases hp : st.policy with _ | p
    · simp [qcHandleSubmit, hp, qcFetchCalls]
    · rcases hpc : st.property_cert with _ | pc
      · simp [qcHandleSubmit, hp, hpc, qcFetchCalls]
      · rcases hgc : st.gl_cert with _ | gc
        · simp [qcHandleSubmit, hp, hpc, hgc, qcFetchCalls]
        · rcases h with h | h | h
          · rw [hp] at h
            exact absurd h (by simp)
          · rw [hpc] at h
            exact absurd h (by simp)
          · rw [hgc] at h
            exact absurd h (by simp)
  · rintro ⟨p, hp⟩ ⟨pc, hpc⟩ ⟨gc, hgc⟩
    exact ⟨_, by rw [qcHandleSubmit, hp, hpc, hgc]⟩

/-- C10 witness: with only the policy PDF attached the QC flow errors and
makes zero fetch calls; with all three it posts. -/
theorem qc_requires_all_three_files_witness :
    (qcHandleSubmit ⟨some ("p.pdf"), none, none⟩ none =
      QCOutcome.validationError ("Please upload all three PDF files") ∧
     qcFetchCalls (qcHandleSubmit ⟨some ("p.pdf"), none, none⟩ none) = 0) ∧
    ∃ fields, qcHandleSubmit ⟨some ("p.pdf"), some ("pc.pdf"), some ("gc.pdf")⟩ none =
      QCOutcome.request fields := by
  constructor
  · exact (qc_requires_all_three_files ⟨some ("p.pdf"), none, none⟩ none).1
      (Or.inr (Or.inl rfl))
  · exact (qc_requires_all_three_files ⟨some ("p.pdf"), some ("pc.pdf"), some ("gc.pdf")⟩ none).2.1
      ⟨("p.pdf"), rfl⟩ ⟨("pc.pdf"), rfl⟩ ⟨("gc.pdf"), rfl⟩

/-- C8: the register flow fails with a client-side validation error and
zero network calls whenever the username is shorter than 3 characters or
the confirmation mismatches; on valid inputs it returns a Session carrying
exactly the canonical username echoed by the backend, or a conflict error
carrying the backend detail — and the outcome is never both. -/
theorem register_validation_and_session (u p c : String) (b : RegisterResponse) :
    ((u.length < 3 ∨ p ≠ c) →
      (registerSubmit u p c b).1 = 0 ∧
      ∃ m, (registerSubmit u p c b).2 = RegisterResult.validationError m) ∧
    (3 ≤ u.length → p = c →
      (∀ can, b = RegisterResponse.ok can →
        (registerSubmit u p c b).2 = RegisterResult.session can ∧
        (registerSubmit u p c b).1 = 1) ∧
      (∀ d, b = RegisterResponse.err d →
        ∃ m, (registerSubmit u p c b).2 = RegisterResult.conflictError m) ∧
      (∀ s m, ¬((registerSubmit u p c b).2 = RegisterResult.session s ∧
                (registerSubmit u p c b).2 = RegisterResult.conflictError m))) := by
  constructor
  · intro h
    by_cases hlen : u.length < 3
    · rw [registerSubmit, if_pos hlen]
      exact ⟨rfl, _, rfl⟩
    · have hpc : p ≠ c := by
        rcases h with h | h
        · exact absurd h hlen
        · exact h
      rw [registerSubmit, if_neg hlen, if_pos hpc]
      exact ⟨rfl, _, rfl⟩
  · intro hlen hpc
    have hnot : ¬ u.length < 3 := by omega
    have hne : ¬ p ≠ c := by simp [hpc]
    refine ⟨?_, ?_, ?_⟩
    · intro can hb
      rw [registerSubmit, if_neg hnot, if_neg hne, hb]
      exact ⟨rfl, rfl⟩
    · intro d hb
      rw [registerSubmit, if_neg hnot, if_neg hne, hb]
      exact ⟨_, rfl⟩
    · intro s m ⟨h1, h2⟩
      rw [h1] at h2
      exact absurd h2 (by simp)

/-- C8 witness: a too-short username fails before the network with zero
calls, and a valid registration returns the canonical echoed Session. -/
theorem register_validation_and_session_witness :
    ((registerSubmit ("ab") ("pw") ("pw") (RegisterResponse.ok ("ab"))).1 = 0 ∧
      ∃ m, (registerSubmit ("ab") ("pw") ("pw") (RegisterResponse.ok ("ab"))).2 =
        RegisterResult.validationError m) ∧
    (registerSubmit ("mudassir") ("pw1") ("pw1") (RegisterResponse.ok ("mudassir"))).2 =
      RegisterResult.session ("mudassir") := by
  constructor
  · exact (register_validation_and_session ("ab") ("pw") ("pw")
      (RegisterResponse.ok ("ab"))).1 (Or.inl (by decide))
  · exact ((register_validation_and_session ("mudassir") ("pw1") ("pw1")
      (RegisterResponse.ok ("mudassir"))).2 (by decide) rfl).1 ("mudassir") rfl |>.1

theorem step_not_resolve (k : Nat) (r : PollResponse)
    (h : responseHasPrimary r = false) (d : QCData) :
    fetchResultsStep k r ≠ PollStep.resolve d := by
  cases r with
  | netFail msg =>
      by_cases hk : k < 60 <;> simp [fetchResultsStep, hk]
  | http status body =>
      by_cases hok : respOk status = true
      · cases body with
        | none =>
            by_cases hk : k < 60 <;> simp [fetchResultsStep, hok, hk]
        | some dd =>
            by_cases hprim : (dd.success && dd.llm_results.isSome) = true
            · exfalso
              simp only [responseHasPrimary] at h
              rw [hok, Bool.true_and] at h
              rw [h] at hprim
              exact absurd hprim (by decide)
            · by_cases hk : k < 120 <;> simp [fetchResultsStep, hok, hprim, hk]
      · have hro : respOk status = false := by
          cases hre : respOk status
          · rfl
          · exact absurd hre hok
        by_cases h404 : status = 404
        · subst h404
          have hro4 : respOk 404 = false := by decide
          by_cases hk : k < 60 <;> simp [fetchResultsStep, hro4, hk]
        · by_cases hk : k < 60 <;> simp [fetchResultsStep, hro, h404, hk]

theorem pollRun_no_primary_no_resolve (rs : List PollResponse)
    (h : ∀ r ∈ rs, responseHasPrimary r = false) :
    ∀ (k a : Nat) (d : QCData), pollRun rs k ≠ RunResult.resolved d a := by
  induction rs with
  | nil =>
      intro k a d
      simp [pollRun]
  | cons r rest ih =>
      intro k a d
      rw [pollRun]
      cases hstep : fetchResultsStep k r with
      | schedule =>
          exact ih (fun x hx => h x (List.mem_cons_of_mem r hx)) (k + 1) a d
      | resolve d2 =>
          exact absurd hstep (step_not_resolve k r (h r (List.mem_cons_self r rest)) d2)
      | fail m => simp

/-- C4: an HTTP 404 response is treated as not-ready and another poll is
scheduled while the attempt count is below 60; a response sequence that
never carries the primary extraction payload can never make the poller
resolve; and on an all-404 sequence the poller terminates with the terminal
error at attempt 60 instead of resolving. -/
theorem poller_404_and_timeout :
    (∀ (n : Nat) (b : Option QCData), n < 60 →
      fetchResultsStep n (PollResponse.http 404 b) = PollStep.schedule) ∧
    (∀ (rs : List PollResponse), (∀ r ∈ rs, responseHasPrimary r = false) →
      ∀ (k a : Nat) (d : QCData), pollRun rs k ≠ RunResult.resolved d a) ∧
    pollRun (List.replicate 61 (PollResponse.http 404 none)) 0 =
      RunResult.errored ("Failed to fetch results") 60 := by
  refine ⟨?_, pollRun_no_primary_no_resolve, by decide⟩
  intro n b hn
  have hro : respOk 404 = false := by decide
  simp [fetchResultsStep, hro, hn]

/-- C4 witness: at attempt 0 a 404 schedules another poll, and the one-step
404 mock never resolves. -/
theorem poller_404_and_timeout_witness :
    fetchResultsStep 0 (PollResponse.http 404 none) = PollStep.schedule ∧
    pollRun [PollResponse.http 404 none] 0 ≠
      RunResult.resolved ⟨true, some ("llm"), none⟩ 0 := by
  constructor
  · exact poller_404_and_timeout.1 0 none (by decide)
  · exact poller_404_and_timeout.2.1 [PollResponse.http 404 none]
      (by intro r hr; simp at hr; rw [hr]; rfl) 0 0 ⟨true, some ("llm"), none⟩

/-- C2: with the primary payload present but the secondary flagged payload
absent or empty, the poller schedules another poll while the attempt count
is below 120 (it does not resolve early); it resolves with the full data
as soon as the flagged payload is non-empty; past 120 attempts it resolves
with the primary payload alone; and on the mock sequence
404, 404, primary-only, primary-with-secondary it resolves exactly once,
at attempt 3, with both payloads. -/
theorem poller_waits_for_secondary :
    (∀ (n : Nat) (d : QCData), d.success = true → d.llm_results.isSome = true →
      flaggedNonempty d = false → n < 120 →
      fetchResultsStep n (PollResponse.http 200 (some d)) = PollStep.schedule) ∧
    (∀ (n : Nat) (d : QCData), d.success = true → d.llm_results.isSome = true →
      flaggedNonempty d = true →
      fetchResultsStep n (PollResponse.http 200 (some d)) = PollStep.resolve d) ∧
    (∀ (n : Nat) (d : QCData), d.success = true → d.llm_results.isSome = true →
      flaggedNonempty d = false → 120 ≤ n →
      fetchResultsStep n (PollResponse.http 200 (some d)) = PollStep.resolve d) ∧
    pollRun
      [PollResponse.http 404 none, PollResponse.http 404 none,
       PollResponse.http 200 (some ⟨true, some ("llm"), none⟩),
       PollResponse.http 200 (some ⟨true, some ("llm"), some [("property"), ("gl")]⟩)] 0 =
      RunResult.resolved ⟨true, some ("llm"), some [("property"), ("gl")]⟩ 3 := by
  have hro : respOk 200 = true := by decide
  refine ⟨?_, ?_, ?_, by decide⟩
  · intro n d hsuc hllm hflag hn
    simp [fetchResultsStep, hro, hsuc, hllm, hflag, hn]
  · intro n d hsuc hllm hflag
    simp [fetchResultsStep, hro, hsuc, hllm, hflag]
  · intro n d hsuc hllm hflag hn
    have : ¬ n < 120 := by omega
    simp [fetchResultsStep, hro, hsuc, hllm, hflag, this]

/-- C2 witness: at attempt 5 a primary-only response schedules another
poll, and at attempt 120 it resolves with the primary payload alone. -/
theorem poller_waits_for_secondary_witness :
    fetchResultsStep 5 (PollResponse.http 200 (some ⟨true, some ("llm"), none⟩)) =
      PollStep.schedule ∧
    fetchResultsStep 120 (PollResponse.http 200 (some ⟨true, some ("llm"), none⟩)) =
      PollStep.resolve ⟨true, some ("llm"), none⟩ := by
  constructor
  · exact poller_waits_for_secondary.1 5 ⟨true, some ("llm"), none⟩ rfl rfl rfl (by decide)
  · exact poller_waits_for_secondary.2.2.1 120 ⟨true, some ("llm"), none⟩ rfl rfl rfl
      (by decide)

/-- C5: a network failure during polling is retried exactly while the
attempt count is below 60 — the same deadline as the not-ready 404
polling — and at 60 or beyond both terminate with a terminal error. -/
theorem poll_netfail_same_deadline (n : Nat) (m : String) (b : Option QCData) :
    ((fetchResultsStep n (PollResponse.netFail m) = PollStep.schedule) ↔ n < 60) ∧
    ((fetchResultsStep n (PollResponse.http 404 b) = PollStep.schedule) ↔ n < 60) ∧
    ((fetchResultsStep n (PollResponse.netFail m) = PollStep.schedule) ↔
      (fetchResultsStep n (PollResponse.http 404 b) = PollStep.schedule)) ∧
    (60 ≤ n → fetchResultsStep n (PollResponse.netFail m) = PollStep.fail m ∧
      fetchResultsStep n (PollResponse.http 404 b) =
        PollStep.fail ("Failed to fetch results")) := by
  have hro : respOk 404 = false := by decide
  by_cases hn : n < 60
  · have h60 : ¬ 60 ≤ n := by omega
    refine ⟨?_, ?_, ?_, ?_⟩
    · simp [fetchResultsStep, hn]
    · simp [fetchResultsStep, hro, hn]
    · simp [fetchResultsStep, hro, hn]
    · intro h
      exact absurd h h60
  · refine ⟨?_, ?_, ?_, ?_⟩
    · simp [fetchResultsStep, hn]
    · simp [fetchResultsStep, hro, hn]
    · simp [fetchResultsStep, hro, hn]
    · intro _
      constructor
      · simp [fetchResultsStep, hn]
      · simp [fetchResultsStep, hro, hn]

/-- C5 witness: at attempt 60 both a network failure and a 404 terminate
with their terminal errors, and at attempt 0 both schedule a retry. -/
theorem poll_netfail_same_deadline_witness :
    fetchResultsStep 60 (PollResponse.netFail ("Failed to fetch")) =
      PollStep.fail ("Failed to fetch") ∧
    fetchResultsStep 60 (PollResponse.http 404 none) =
      PollStep.fail ("Failed to fetch results") ∧
    fetchResultsStep 0 (PollResponse.netFail ("Failed to fetch")) = PollStep.schedule := by
  refine ⟨?_, ?_, ?_⟩
  · exact ((poll_netfail_same_deadline 60 ("Failed to fetch") none).2.2.2 (by decide)).1
  · exact ((poll_netfail_same_deadline 60 ("Failed to fetch") none).2.2.2 (by decide)).2
  · exact (poll_netfail_same_deadline 0 ("Failed to fetch") none).1.mpr (by decide)

theorem hasTag_nil (i : Nat) (s : FileSlot) : hasTag [] i s = false := rfl

theorem hasTag_cons (t : FileTag) (ts : List FileTag) (i : Nat) (s : FileSlot) :
    hasTag (t :: ts) i s =
      ((decide (t.carrierIndex = i) && decide (t.type = s)) || hasTag ts i s) := by
  simp [hasTag]

theorem hasTag_append (t1 t2 : List FileTag) (i : Nat) (s : FileSlot) :
    hasTag (t1 ++ t2) i s = (hasTag t1 i s || hasTag t2 i s) :=
  List.any_append

theorem hasTag_batch_low (cs : List CarrierData) (m i : Nat) (s : FileSlot)
    (him : i < m) : hasTag ((batchFileEntries m cs).map Prod.snd) i s = false := by
  induction cs generalizing m with
  | nil => rfl
  | cons c rest ih =>
      have hmi : ¬ (m = i) := by omega
      have htail := ih (m + 1) (by omega)
      rw [batchFileEntries]
      rcases hp : c.propertyPDF with _ | f <;> rcases hl : c.liabilityPDF with _ | g <;>
        simp [List.map_append, hasTag_append, hasTag_nil, hasTag_cons, hmi, htail]

theorem hasTag_batch (cs : List CarrierData) (n j : Nat) (hj : j < cs.length)
    (s : FileSlot) :
    hasTag ((batchFileEntries n cs).map Prod.snd) (n + j) s =
      (slotFile (cs.get ⟨j, hj⟩) s).isSome := by
  induction cs generalizing n j with
  | nil => simp at hj
  | cons c rest ih =>
      cases j with
      | zero =>
          have hget : (c :: rest).get ⟨0, hj⟩ = c := rfl
          rw [hget]
          have hlow := hasTag_batch_low rest (n + 1) n s (by omega)
          rw [batchFileEntries]
          rcases hp : c.propertyPDF with _ | f <;> rcases hl : c.liabilityPDF with _ | g <;>
            cases s <;>
            simp [List.map_append, hasTag_append, hasTag_nil, hasTag_cons, hlow,
              slotFile, hp, hl]
      | succ j' =>
          have hj' : j' < rest.length := by simpa using hj
          have hget : (c :: rest).get ⟨j' + 1, hj⟩ = rest.get ⟨j', hj'⟩ := rfl
          rw [hget]
          have hidx : n + (j' + 1) = (n + 1) + j' := by omega
          rw [hidx]
          have hne2 : ¬ (n = (n + 1) + j') := by omega
          have htail := ih (n + 1) j' hj'
          rw [batchFileEntries]
          rcases hp : c.propertyPDF with _ | f <;> rcases hl : c.liabilityPDF with _ | g <;>
            simp [List.map_append, hasTag_append, hasTag_nil, hasTag_cons, hne2, htail]

theorem reconstructFrom_spec (cs : List CarrierData) (n : Nat) (tags : List FileTag)
    (H : ∀ (j : Nat) (hj : j < cs.length) (s : FileSlot),
      hasTag tags (n + j) s = (slotFile (cs.get ⟨j, hj⟩) s).isSome) :
    reconstructFrom n (carriersDescriptor cs) tags =
      cs.map (fun c => (c.name, c.propertyPDF.isSome, c.liabilityPDF.isSome)) := by
  induction cs generalizing n with
  | nil => rfl
  | cons c rest ih =>
      have h0p : hasTag tags n FileSlot.property = c.propertyPDF.isSome := by
        have h := H 0 (by simp) FileSlot.property
        rw [Nat.add_zero] at h
        exact h
      have h0l : hasTag tags n FileSlot.liability = c.liabilityPDF.isSome := by
        have h := H 0 (by simp) FileSlot.liability
        rw [Nat.add_zero] at h
        exact h
      have htail : ∀ (j : Nat) (hj : j < rest.length) (s : FileSlot),
          hasTag tags ((n + 1) + j) s = (slotFile (rest.get ⟨j, hj⟩) s).isSome := by
        intro j hj s
        have h := H (j + 1) (by simpa using hj) s
        have hidx : n + (j + 1) = (n + 1) + j := by omega
        rw [hidx] at h
        exact h
      have hrec := ih (n + 1) htail
      rw [carriersDescriptor] at hrec ⊢
      rw [List.map_cons, reconstructFrom, h0p, h0l, hrec, List.map_cons]

theorem batch_assoc (cs : List CarrierData) (n : Nat) (p : String × FileTag)
    (hp : p ∈ batchFileEntries n cs) :
    ∃ j, ∃ hj : j < cs.length, p.2.carrierIndex = n + j ∧
      slotFile (cs.get ⟨j, hj⟩) p.2.type = some p.1 := by
  induction cs generalizing n with
  | nil => simp [batchFileEntries] at hp
  | cons c rest ih =>
      rw [batchFileEntries, List.mem_append, List.mem_append] at hp
      rcases hp with (hp | hp) | hp
      · rcases hprop : c.propertyPDF with _ | f
        · rw [hprop] at hp
          simp at hp
        · rw [hprop] at hp
          simp at hp
          subst hp
          exact ⟨0, by simp, by simp, hprop⟩
      · rcases hliab : c.liabilityPDF with _ | g
        · rw [hliab] at hp
          simp at hp
        · rw [hliab] at hp
          simp at hp
          subst hp
          exact ⟨0, by simp, by simp, hliab⟩
      · obtain ⟨j, hj, hidx, hslot⟩ := ih (n + 1) hp
        refine ⟨j + 1, by simpa using hj, by omega, ?_⟩
        exact hslot

theorem batch_length (cs : List CarrierData) (n : Nat) :
    (batchFileEntries n cs).length =
      (cs.map (fun c => (if c.propertyPDF.isSome then 1 else 0) +
        (if c.liabilityPDF.isSome then 1 else 0))).sum := by
  induction cs generalizing n with
  | nil => rfl
  | cons c rest ih =>
      rw [batchFileEntries]
      rcases hp : c.propertyPDF with _ | f <;> rcases hl : c.liabilityPDF with _ | g <;>
        simp [List.map_cons, List.sum_cons, hp, hl, ih (n + 1)] <;> omega

theorem zip_fst_snd {α β : Type} (es : List (α × β)) :
    (es.map Prod.fst).zip (es.map Prod.snd) = es := by
  induction es with
  | nil => rfl
  | cons e rest ih => simp [ih]

/-- C9: for every carrier list meeting the submit preconditions, the
request's batch descriptor and per-file tags determine the original
entries: the stub-backend deserialization recovers, per entry and in
order, the name and which slots had files; the files and tags lists are
parallel, with exactly one file and one tag per attached slot; and each
file in the flat list is associated by its tag's carrier index and slot to
exactly the file that carrier held in that slot. -/
theorem batch_descriptor_roundtrip (u : String) (cs : List CarrierData)
    (hnames : ∀ c ∈ cs, jsTrim c.name ≠ "")
    (hfile : ∃ c ∈ cs, c.propertyPDF.isSome ∨ c.liabilityPDF.isSome) :
    ∃ r, handleExecute u cs = ExecuteOutcome.request r ∧
      reconstructCarriers r.carriers_json r.file_metadata =
        cs.map (fun c => (c.name, c.propertyPDF.isSome, c.liabilityPDF.isSome)) ∧
      r.files.length = r.file_metadata.length ∧
      r.file_metadata.length = (cs.map (fun c =>
        (if c.propertyPDF.isSome then 1 else 0) +
        (if c.liabilityPDF.isSome then 1 else 0))).sum ∧
      ∀ p ∈ r.files.zip r.file_metadata,
        ∃ j, ∃ hj : j < cs.length, p.2.carrierIndex = j ∧
          slotFile (cs.get ⟨j, hj⟩) p.2.type = some p.1 := by
  have hA : (cs.all fun c => jsTrim c.name != "") = true := by
    rw [List.all_eq_true]
    intro c hc
    simpa using hnames c hc
  have hB : (cs.any fun c => c.propertyPDF.isSome || c.liabilityPDF.isSome) = true := by
    rw [List.any_eq_true]
    obtain ⟨c, hc, hor⟩ := hfile
    exact ⟨c, hc, by rcases hor with h | h <;> simp [h]⟩
  refine ⟨{ headers := [("ngrok-skip-browser-warning", "true")]
            carriers_json := carriersDescriptor cs
            files := (batchFileEntries 0 cs).map Prod.fst
            file_metadata := (batchFileEntries 0 cs).map Prod.snd },
          by rw [handleExecute]; simp [hA, hB], ?_, ?_, ?_, ?_⟩
  · exact reconstructFrom_spec cs 0 ((batchFileEntries 0 cs).map Prod.snd)
      (fun j hj s => hasTag_batch cs 0 j hj s)
  · simp
  · simp [batch_length cs 0]
  · intro p hp
    rw [zip_fst_snd] at hp
    obtain ⟨j, hj, hidx, hslot⟩ := batch_assoc cs 0 p hp
    rw [Nat.zero_add] at hidx
    exact ⟨j, hj, hidx, hslot⟩

/-- C9 witness: a two-carrier batch with a property file on the first and a
liability file on the second round-trips to exactly the original names and
slot flags. -/
theorem batch_descriptor_roundtrip_witness :
    ∃ r, handleExecute ("mudassir")
        [⟨1, ("Alpha"), some ("a_prop.pdf"), none⟩,
         ⟨2, ("Beta"), none, some ("b_liab.pdf")⟩] = ExecuteOutcome.request r ∧
      reconstructCarriers r.carriers_json r.file_metadata =
        [(("Alpha"), true, false), (("Beta"), false, true)] ∧
      r.files.length = r.file_metadata.length ∧
      r.file_metadata.length = 2 := by
  obtain ⟨r, hout, hrec, hlen, hsum, _⟩ := batch_descriptor_roundtrip ("mudassir")
    [⟨1, ("Alpha"), some ("a_prop.pdf"), none⟩, ⟨2, ("Beta"), none, some ("b_liab.pdf")⟩]
    (by intro c hc; simp at hc; rcases hc with h | h <;> rw [h] <;> decide)
    ⟨⟨1, ("Alpha"), some ("a_prop.pdf"), none⟩, by simp, Or.inl rfl⟩
  refine ⟨r, hout, ?_, hlen, ?_⟩
  · rw [hrec]
    rfl
  · rw [hsum]
    rfl
